import Mathlib

/-!
Shallow embedding of the form-builder core (schema model, validation engine,
canvas structural operations, drop-index computation) of the repository
under verification, together with theorems settling the frozen claims.

Sources embedded:
- `client/lib/form-schema.ts` (the items-based variant): data types,
  `createDefaultField`, `createDefaultSection`, `isFormField`,
  `isFormSection`, `getAllFields`.
- `client/lib/form-validation.ts`: `validateField`, `validateForm`,
  `isValidDate`.
- `FormCanvas.tsx`: `handleAddField`, `handleReorderField`,
  `handleCloneField`, `handleUpdateField`, `handleDeleteField`,
  `handleAddSection`, `handleDeleteSection`, `handleReorderSection`,
  `getDropZonePosition`.
- `FormRenderer.tsx`: `canSubmit`, the submit-time validation pipeline
  (temporary single-section schema over `getAllFields`), and the
  disabled/placeholder decision of `renderField`.

Modelling conventions:
- JavaScript runtime values flowing through validation are modelled by the
  inductive `JSValue`.  JS numbers are modelled as rationals (`Rat`); `NaN`
  is modelled as `Option.none` at conversion sites.  Hexadecimal, exponent
  and `Infinity` numeric literals are not modelled by the string-to-number
  conversion (no claim exercises them).
- Host-defined behaviour (`RegExp.test`, `Date` parsing of strings, the
  floating-point file-size formatter) is abstracted by the oracle record
  `JsEnv`; every theorem quantifies over the oracle or instantiates it at a
  point where the oracle is never consulted.
- The source mutates a shallow copy of the schema in place; the embedding
  computes the resulting schema value directly (value semantics).  The one
  place where reference sharing is observable (the object spread in
  `handleCloneField` copying the `properties` reference) is modelled
  separately by `FormFieldRef`/`storeWrite`.
-/

/-- A dropdown option `{id, label, value}` from `form-schema.ts`. -/
structure DropdownOption where
  id : String
  label : String
  value : String
deriving Repr, DecidableEq

/-- The `validation` sub-object of `BaseFieldProperties`
(`required?`, `minLength?`, `maxLength?`, `pattern?`). -/
structure ValidationRules where
  required : Option Bool := none
  minLength : Option Nat := none
  maxLength : Option Nat := none
  pattern : Option String := none
deriving Repr, DecidableEq

/-- The union of the per-type property bags.  TypeScript accesses the bag
through `as any`, so absent keys read as `undefined`; the embedding gives
every key an `Option` slot, mirroring that access pattern exactly. -/
structure FieldProperties where
  placeholder : Option String := none
  validation : Option ValidationRules := none
  dateFormat : Option String := none
  options : Option (List DropdownOption) := none
  selectionType : Option String := none
  allowOther : Option Bool := none
  min : Option Rat := none
  max : Option Rat := none
  step : Option Rat := none
  acceptedTypes : Option (List String) := none
  maxSize : Option Rat := none
  multiple : Option Bool := none
deriving Repr, DecidableEq

/-- The closed set of field-type tags (`FieldType` in `form-schema.ts`). -/
inductive FieldType where
  | shortText
  | longText
  | datePicker
  | dropdown
  | fileUpload
  | number
  | udfDesignation
  | udfDepartment
  | udfLocation
  | udfBloodGroup
  | udfEducation
deriving Repr, DecidableEq

/-- The string literal of each tag, as written in the TypeScript union. -/
def FieldType.tag : FieldType → String
  | .shortText => "short-text"
  | .longText => "long-text"
  | .datePicker => "date-picker"
  | .dropdown => "dropdown"
  | .fileUpload => "file-upload"
  | .number => "number"
  | .udfDesignation => "udf-designation"
  | .udfDepartment => "udf-department"
  | .udfLocation => "udf-location"
  | .udfBloodGroup => "udf-blood-group"
  | .udfEducation => "udf-education"

/-- `field.type.startsWith("udf-")`, the discriminator used by
`FormRenderer.renderField` and `FieldEditor` (string-prefix test written
over the char lists so it evaluates inside the kernel). -/
def FieldType.isUDF (t : FieldType) : Bool :=
  "udf-".data.isPrefixOf t.tag.data

/-- The `label` column of the `FIELD_TYPES` registry table. -/
def FieldType.registryLabel : FieldType → String
  | .shortText => "Short Text"
  | .longText => "Long Text"
  | .datePicker => "Date Picker"
  | .dropdown => "Dropdown"
  | .fileUpload => "File Upload"
  | .number => "Number"
  | .udfDesignation => "Designation"
  | .udfDepartment => "Department"
  | .udfLocation => "Location"
  | .udfBloodGroup => "Blood Group"
  | .udfEducation => "Education"

/-- `FormField` from `form-schema.ts`. -/
structure FormField where
  id : String
  type : FieldType
  label : String
  description : Option String := none
  required : Bool
  showDescription : Bool
  properties : FieldProperties
  order : Nat
deriving Repr, DecidableEq

/-- `FormSection` from `form-schema.ts`. -/
structure FormSection where
  id : String
  title : String
  description : Option String := none
  fields : List FormField
  order : Nat
deriving Repr, DecidableEq

/-- `FormItem = FormField | FormSection`.  The TypeScript union is
discriminated structurally (`"type" in item` / `"fields" in item`); the
embedding uses an inductive with one constructor per arm. -/
inductive FormItem where
  | fieldItem : FormField → FormItem
  | sectionItem : FormSection → FormItem
deriving Repr, DecidableEq

/-- `isFormField(item)`: `"type" in item`. -/
def isFormField : FormItem → Bool
  | .fieldItem _ => true
  | .sectionItem _ => false

/-- `isFormSection(item)`: `"fields" in item`. -/
def isFormSection : FormItem → Bool
  | .fieldItem _ => false
  | .sectionItem _ => true

/-- `FormSchema` from `form-schema.ts` (items-based variant).  Timestamps
are abstract ticks. -/
structure FormSchema where
  id : String
  title : String
  description : Option String := none
  items : List FormItem
  createdAt : Nat := 0
  updatedAt : Nat := 0
deriving Repr, DecidableEq

/-- A JS `File` object, reduced to the members the validator reads. -/
structure JSFile where
  name : String
  size : Rat
deriving Repr, DecidableEq

/-- JavaScript runtime values that flow through the value map and the
validator.  `num` carries a rational (JS `NaN`/`Infinity` excluded; the
conversion sites model `NaN` as `Option.none`).  `date b` is a `Date`
object whose validity flag is `b` (`!isNaN(date.getTime())`).  `files`
is a `FileList`, `file` a single `File`. -/
inductive JSValue where
  | undefined : JSValue
  | null : JSValue
  | str : String → JSValue
  | num : Rat → JSValue
  | bool : Bool → JSValue
  | arr : List JSValue → JSValue
  | date : Bool → JSValue
  | file : JSFile → JSValue
  | files : List JSFile → JSValue
deriving Repr, BEq

/-- JS truthiness of a `JSValue` (`!value` is its negation).  Objects
(arrays, dates, files) are always truthy; `""`, `0`, `false`,
`null` and `undefined` are falsy. -/
def jsTruthy : JSValue → Bool
  | .undefined => false
  | .null => false
  | .str s => !(s == "")
  | .num q => !(q == 0)
  | .bool b => b
  | .arr _ => true
  | .date _ => true
  | .file _ => true
  | .files _ => true

/-- `s.trim()`: strip leading and trailing whitespace.  (A char-list
implementation is used so that closed examples evaluate inside the
kernel; it agrees with the library `String.trim` on the whitespace
notion of `Char.isWhitespace`.) -/
def jsTrim (s : String) : String :=
  ⟨((s.data.dropWhile Char.isWhitespace).reverse.dropWhile Char.isWhitespace).reverse⟩

/-- `s.toLowerCase()`, as a kernel-reducible char map. -/
def jsToLower (s : String) : String :=
  ⟨s.data.map Char.toLower⟩

/-- The emptiness guard used twice by `validateField`:
`(!value || (typeof value === "string" && value.trim() === ""))`. -/
def isBlankValue (v : JSValue) : Bool :=
  !jsTruthy v ||
    (match v with
     | .str s => jsTrim s == ""
     | _ => false)

/-- Numeric value of a run of decimal digit characters (`none` when any
character is not a digit). -/
def digitsToNat (cs : List Char) : Option Nat :=
  cs.foldl
    (fun acc c =>
      match acc with
      | none => none
      | some n => if c.isDigit then some (n * 10 + (c.toNat - 48)) else none)
    (some 0)

/-- Parse an unsigned decimal literal (digits, optionally with one decimal
point; `"5."` and `".5"` are accepted, `"."` and `""` are not), as the JS
`Number` conversion does for such strings. -/
def parseUnsignedDecimal (cs : List Char) : Option Rat :=
  let intPart := cs.takeWhile Char.isDigit
  let rest := cs.dropWhile Char.isDigit
  match rest with
  | [] =>
    if intPart.isEmpty then none
    else (digitsToNat intPart).map (fun n => (n : Rat))
  | c :: fracPart =>
    if c == Char.ofNat 46 then
      if fracPart.all Char.isDigit then
        if intPart.isEmpty && fracPart.isEmpty then none
        else
          match digitsToNat intPart, digitsToNat fracPart with
          | some ip, some fp =>
            some ((ip : Rat) + (fp : Rat) / ((10 : Rat) ^ fracPart.length))
          | _, _ => none
      else none
    else none

/-- `Number(s)` for a string `s`: trim, empty trims to `0`, optional sign,
decimal literal; `none` models `NaN`.  (Hexadecimal, exponent and
`Infinity` forms are not modelled; no claim exercises them.) -/
def jsStringToNumber (s : String) : Option Rat :=
  let t := jsTrim s
  if t.isEmpty then some 0
  else
    match t.data with
    | [] => some 0
    | c :: rest =>
      if c == Char.ofNat 45 then (parseUnsignedDecimal rest).map (fun q => -q)
      else if c == Char.ofNat 43 then parseUnsignedDecimal rest
      else parseUnsignedDecimal t.data

/-- `Number(value)` as used by the validator's number branch; `none`
models `NaN`.  Array and object coercions (via `toString`) are modelled
only for the empty array; no claim reaches the other shapes. -/
def jsToNumber : JSValue → Option Rat
  | .num q => some q
  | .str s => jsStringToNumber s
  | .bool b => some (if b then 1 else 0)
  | .null => some 0
  | .undefined => none
  | .arr l => match l with | [] => some 0 | _ => none
  | .date _ => none
  | .file _ => none
  | .files _ => none

/-- `ValidationError` from `form-validation.ts`. -/
structure ValidationError where
  fieldId : String
  message : String
deriving Repr, DecidableEq

/-- `ValidationResult` from `form-validation.ts`. -/
structure ValidationResult where
  isValid : Bool
  errors : List ValidationError
deriving Repr, DecidableEq

/-- Host-defined behaviour the validator delegates to the JS runtime:
`new RegExp(pattern).test(value)`, `Date` parsing of strings inside
`isValidDate`, and the floating-point file-size formatter used only to
render a message. -/
structure JsEnv where
  regexTest : String → String → Bool
  parseDateString : String → Bool
  fmtFileSize : Rat → String

/-- A concrete oracle instance for evaluating closed examples; no closed
example below depends on the oracle's answers. -/
def defaultEnv : JsEnv :=
  { regexTest := fun _ _ => true
    parseDateString := fun _ => false
    fmtFileSize := fun _ => "" }

/-- `isValidDate(value)` from `form-validation.ts`: a `Date` object is
valid iff its time is not `NaN`; a string is parsed by the host `Date`
constructor; anything else is invalid. -/
def isValidDate (env : JsEnv) : JSValue → Bool
  | .date valid => valid
  | .str s => env.parseDateString s
  | _ => false

/-- The single required-error entry `{fieldId, label + " is required"}`. -/
def requiredError (f : FormField) : ValidationError :=
  ⟨f.id, f.label ++ " is required"⟩

/-- Text branch of `validateField` (`short-text` / `long-text`): guarded by
`typeof value === "string"`; `minLength`/`maxLength`/`pattern` are read
with optional chaining and JS truthiness (so a present `0` / `""` disables
the check, exactly as `properties.validation?.minLength && ...` does). -/
def textChecks (env : JsEnv) (f : FormField) (v : JSValue) : List ValidationError :=
  match v with
  | .str s =>
    let rules := f.properties.validation
    let minErr :=
      match rules with
      | some r =>
        match r.minLength with
        | some m =>
          if !(m == 0) && s.length < m then
            [⟨f.id, f.label ++ " must be at least " ++ toString m ++ " characters"⟩]
          else []
        | none => []
      | none => []
    let maxErr :=
      match rules with
      | some r =>
        match r.maxLength with
        | some m =>
          if !(m == 0) && s.length > m then
            [⟨f.id, f.label ++ " must be no more than " ++ toString m ++ " characters"⟩]
          else []
        | none => []
      | none => []
    let patErr :=
      match rules with
      | some r =>
        match r.pattern with
        | some p =>
          if !(p == "") && !(env.regexTest p s) then
            [⟨f.id, f.label ++ " format is invalid"⟩]
          else []
        | none => []
      | none => []
    minErr ++ maxErr ++ patErr
  | _ => []

/-- Number branch of `validateField`: `Number(value)` must not be `NaN`;
then `min`/`max` bounds (checked with `!== undefined`, so a present `0`
bound is enforced). -/
def numberChecks (f : FormField) (v : JSValue) : List ValidationError :=
  match jsToNumber v with
  | none => [⟨f.id, f.label ++ " must be a valid number"⟩]
  | some q =>
    let minErr :=
      match f.properties.min with
      | some m =>
        if q < m then [⟨f.id, f.label ++ " must be at least " ++ toString m⟩] else []
      | none => []
    let maxErr :=
      match f.properties.max with
      | some m =>
        if q > m then [⟨f.id, f.label ++ " must be no more than " ++ toString m⟩] else []
      | none => []
    minErr ++ maxErr

/-- `Array.isArray(value)`. -/
def isArrayValue : JSValue → Bool
  | .arr _ => true
  | _ => false

/-- Dropdown branch of `validateField`: shape of the value must match
`selectionType`. -/
def dropdownChecks (f : FormField) (v : JSValue) : List ValidationError :=
  let st := f.properties.selectionType
  let singleErr :=
    if st == some "single" && isArrayValue v then
      [⟨f.id, f.label ++ " allows only single selection"⟩]
    else []
  let multiErr :=
    if st == some "multi" && !isArrayValue v then
      [⟨f.id, f.label ++ " requires array for multiple selection"⟩]
    else []
  singleErr ++ multiErr

/-- The characters after the last dot of a name (the whole name when it
has no dot; empty when it ends in a dot) — exactly what
`name.split(".").pop()` returns. -/
def afterLastDot (cs : List Char) : List Char :=
  ((cs.reverse.takeWhile (fun c => !(c == Char.ofNat 46)))).reverse

/-- `"." + file.name.split(".").pop().toLowerCase()`. -/
def fileExtension (name : String) : String :=
  "." ++ jsToLower ⟨afterLastDot name.data⟩

/-- The `value instanceof FileList || Array.isArray(value)` coercion at the
head of the file branch: a `FileList` becomes its array of files, an array
is taken as is, anything else skips the branch. -/
def fileCandidates : JSValue → Option (List JSValue)
  | .files fs => some (fs.map JSValue.file)
  | .arr l => some l
  | _ => none

/-- File branch of `validateField`: first offending file (extension not in
the allow-list, checked case-insensitively by suffix) yields one error;
first oversized file yields one error; more than one file with `multiple`
unset/false yields one error.  `acceptedTypes` and `maxSize` are read with
JS truthiness (empty list / `0` disables the check). -/
def fileChecks (env : JsEnv) (f : FormField) (v : JSValue) : List ValidationError :=
  match fileCandidates v with
  | none => []
  | some candidates =>
    let p := f.properties
    let extErr :=
      match p.acceptedTypes with
      | some ats =>
        if !ats.isEmpty then
          if (candidates.find? (fun c =>
                match c with
                | .file fl => !(ats.contains (fileExtension fl.name))
                | _ => false)).isSome then
            [⟨f.id, f.label ++ " accepts only " ++ String.intercalate ", " ats ++ " files"⟩]
          else []
        else []
      | none => []
    let sizeErr :=
      match p.maxSize with
      | some ms =>
        if !(ms == 0) then
          if (candidates.find? (fun c =>
                match c with
                | .file fl => decide (fl.size > ms)
                | _ => false)).isSome then
            [⟨f.id, f.label ++ " file size must be less than " ++ env.fmtFileSize ms⟩]
          else []
        else []
      | none => []
    let multiErr :=
      if !(p.multiple.getD false) && candidates.length > 1 then
        [⟨f.id, f.label ++ " allows only single file upload"⟩]
      else []
    extErr ++ sizeErr ++ multiErr

/-- `validateField(field, value)` from `form-validation.ts`: the required
guard, the empty-skip guard, then the `switch` on `field.type` (no case
matches the udf tags, so they contribute nothing). -/
def validateField (env : JsEnv) (f : FormField) (v : JSValue) : List ValidationError :=
  if f.required && isBlankValue v then
    [requiredError f]
  else if isBlankValue v then
    []
  else
    match f.type with
    | .shortText => textChecks env f v
    | .longText => textChecks env f v
    | .number => numberChecks f v
    | .datePicker =>
      if jsTruthy v && !(isValidDate env v) then
        [⟨f.id, f.label ++ " must be a valid date"⟩]
      else []
    | .dropdown => dropdownChecks f v
    | .fileUpload => fileChecks env f v
    | _ => []

/-- `validateForm(schema, values)` from `form-validation.ts`: it reads only
`schema.sections`, concatenating each field's errors in order. -/
def validateForm (env : JsEnv) (sections : List FormSection)
    (values : String → JSValue) : ValidationResult :=
  let errors :=
    sections.flatMap (fun s => s.fields.flatMap (fun f => validateField env f (values f.id)))
  ⟨errors.isEmpty, errors⟩

/-- `getAllFields(items)` from `form-schema.ts`: push direct fields, spread
each section's fields, in item order. -/
def getAllFields (items : List FormItem) : List FormField :=
  items.flatMap (fun it =>
    match it with
    | .fieldItem f => [f]
    | .sectionItem s => s.fields)

/-- The temporary single-section wrapper `FormRenderer.handleSubmit` builds
before calling `validateForm`. -/
def tempValidationSection (items : List FormItem) : FormSection :=
  { id := "temp", title := "Form", description := some "", fields := getAllFields items, order := 0 }

/-- The validation actually performed on submit:
`validateForm({...schema, sections: [tempSection]}, values)`. -/
def handleSubmitValidation (env : JsEnv) (items : List FormItem)
    (values : String → JSValue) : ValidationResult :=
  validateForm env [tempValidationSection items] values

/-- The disjunction `value === undefined || value === null || value === ""`
tested by `canSubmit` (strict equality, so only the exact empty string
qualifies — no trim, and `0`/`false`/`[]` do not qualify). -/
def isUnanswered : JSValue → Bool
  | .undefined => true
  | .null => true
  | .str s => s == ""
  | _ => false

/-- `canSubmit()` from `FormRenderer.tsx`: every required field's value is
neither `undefined`, `null` nor `""`. -/
def canSubmit (items : List FormItem) (values : String → JSValue) : Bool :=
  ((getAllFields items).filter (fun f => f.required)).all (fun f =>
    !(isUnanswered (values f.id)))

/-- The user-visible empty-state decision of `FormRenderer.renderField`,
reduced to the pair the claims talk about: whether the rendered control is
disabled and which placeholder text it shows. -/
structure RenderedControl where
  disabled : Bool
  placeholder : String
deriving Repr, DecidableEq

/-- `renderField`: a udf-family field short-circuits to a disabled input
with the provenance placeholder, regardless of mode or the `disabled`
argument; every other type renders a control honouring the argument, with
its own empty-state hint. -/
def renderFieldControl (f : FormField) (disabledArg : Bool) : RenderedControl :=
  if f.type.isUDF then
    { disabled := true, placeholder := f.label ++ " (auto-filled from user data)" }
  else
    match f.type with
    | .shortText => { disabled := disabledArg, placeholder := "Your Answer" }
    | .longText => { disabled := disabledArg, placeholder := "Your Answer" }
    | .number => { disabled := disabledArg, placeholder := "Your Answer" }
    | .datePicker => { disabled := disabledArg, placeholder := "Select a date" }
    | .dropdown => { disabled := disabledArg, placeholder := "Select" }
    | .fileUpload => { disabled := disabledArg, placeholder := "Click to upload" }
    | _ => { disabled := disabledArg, placeholder := "Your Answer" }

/-- `createDefaultField(type)` from `form-schema.ts`.  The source returns a
field body without `id`/`order`; the embedding fills those with `""`/`0`
and every caller overrides them, exactly as the source's spread does. -/
def createDefaultField (t : FieldType) : FormField :=
  let props : FieldProperties :=
    match t with
    | .datePicker =>
      { dateFormat := some "MM/DD/YYYY", placeholder := some "Select a date" }
    | .dropdown =>
      { options := some [⟨"1", "Option 1", "option1"⟩]
        selectionType := some "single"
        placeholder := some "Select an option" }
    | .number =>
      { placeholder := some "Enter a number", min := some 0, step := some 1 }
    | .fileUpload =>
      { acceptedTypes := some [".pdf", ".doc", ".docx"]
        maxSize := some 10485760
        multiple := some false }
    | _ => { placeholder := some ("Enter " ++ jsToLower t.registryLabel) }
  { id := ""
    type := t
    label := t.registryLabel
    description := some ""
    required := false
    showDescription := false
    properties := props
    order := 0 }

/-- `createDefaultSection()` from `form-schema.ts`, with the generated id
passed explicitly. -/
def createDefaultSection (newId : String) : FormSection :=
  { id := newId, title := "New Section", description := some "", fields := [], order := 0 }

/-- `list.splice(n, 0, a)`: insert at index `n`, clamped to the end when
`n` exceeds the length (take/drop clamp the same way). -/
def spliceInsert (l : List α) (n : Nat) (a : α) : List α :=
  l.take n ++ a :: l.drop n

/-- `fields.forEach((field, index) => field.order = index)`. -/
def renumberFields (fs : List FormField) : List FormField :=
  fs.enum.map (fun p => { p.2 with order := p.1 })

/-- `items.forEach((item, index) => item.order = index)` (the source writes
the same assignment in both arms of its `isFormField` conditional). -/
def renumberItems (its : List FormItem) : List FormItem :=
  its.enum.map (fun p =>
    match p.2 with
    | .fieldItem f => .fieldItem { f with order := p.1 }
    | .sectionItem s => .sectionItem { s with order := p.1 })

/-- The `order` slot of an item. -/
def itemOrder : FormItem → Nat
  | .fieldItem f => f.order
  | .sectionItem s => s.order

/-- The id slot of an item. -/
def itemId : FormItem → String
  | .fieldItem f => f.id
  | .sectionItem s => s.id

/-- Every id occurring in a list of items: item ids plus ids of fields
nested inside sections. -/
def allIds (its : List FormItem) : List String :=
  its.flatMap (fun it =>
    match it with
    | .fieldItem f => [f.id]
    | .sectionItem s => s.id :: s.fields.map (fun f => f.id))

/-- `true` when no field with id `fid` occurs in the item list, at the root
or inside a section — i.e. the find-the-field loops of the canvas walk past
every one of these items. -/
def noFieldWithId (fid : String) (its : List FormItem) : Bool :=
  its.all (fun it =>
    match it with
    | .fieldItem f => !(f.id == fid)
    | .sectionItem s => s.fields.all (fun f => !(f.id == fid)))

/-- Order density of a fields list: the `order` values read off in array
order are exactly `0, 1, ..., length - 1`. -/
def fieldsOrderDense (fs : List FormField) : Bool :=
  fs.map (fun f => f.order) == List.range fs.length

/-- Order density of the root items list and of every section inside it. -/
def itemsOrderDense (its : List FormItem) : Bool :=
  (its.map itemOrder == List.range its.length) &&
    its.all (fun it =>
      match it with
      | .fieldItem _ => true
      | .sectionItem s => fieldsOrderDense s.fields)

/-- The clone record built by `handleCloneField`:
`{...field, id: generateId(), label: label + " (Copy)", order: pos}` —
an object spread, so `properties` is carried over as is. -/
def cloneOf (f : FormField) (newId : String) (ord : Nat) : FormField :=
  { f with id := newId, label := f.label ++ " (Copy)", order := ord }

/-- The section arm of the clone loop on one fields list: find the first
field with the given id and splice its clone in right after it (the clone's
`order` is the insertion index, as in the source; the caller re-numbers).
`none` when the field is not in this list. -/
def cloneFields (newId fid : String) : Nat → List FormField → Option (List FormField)
  | _, [] => none
  | j, g :: rest =>
    if g.id == fid then some (g :: cloneOf g newId (j + 1) :: rest)
    else (cloneFields newId fid (j + 1) rest).map (fun fs => g :: fs)

/-- The find-and-clone loop of `handleCloneField` over the items, carrying
the current root index `i`: a root field match splices the clone in right
after it with `order = i + 1` and stops WITHOUT re-numbering the root list;
a section containing the field gets the clone spliced into its fields and
those fields re-numbered, and the loop stops. -/
def cloneItemsAux (newId fid : String) : Nat → List FormItem → List FormItem
  | _, [] => []
  | i, .fieldItem f :: rest =>
    if f.id == fid then
      .fieldItem f :: .fieldItem (cloneOf f newId (i + 1)) :: rest
    else
      .fieldItem f :: cloneItemsAux newId fid (i + 1) rest
  | i, .sectionItem s :: rest =>
    match cloneFields newId fid 0 s.fields with
    | some fs => .sectionItem { s with fields := renumberFields fs } :: rest
    | none => .sectionItem s :: cloneItemsAux newId fid (i + 1) rest

/-- `handleCloneField(fieldId)` from `FormCanvas.tsx`, with the generated
id passed explicitly. -/
def handleCloneField (newId fid : String) (schema : FormSchema) : FormSchema :=
  { schema with items := cloneItemsAux newId fid 0 schema.items }

/-- A partial field update (`Partial<FormField>`): `some` marks the keys
present on the update object.  `description` is itself optional on
`FormField`, hence the nested `Option`. -/
structure FieldUpdate where
  id : Option String := none
  type : Option FieldType := none
  label : Option String := none
  description : Option (Option String) := none
  required : Option Bool := none
  showDescription : Option Bool := none
  properties : Option FieldProperties := none
  order : Option Nat := none

/-- `Object.assign(field, updates)`: every key present on the update
overwrites the field's slot — including `id` and `order` when present. -/
def applyUpdate (f : FormField) (u : FieldUpdate) : FormField :=
  { id := u.id.getD f.id
    type := u.type.getD f.type
    label := u.label.getD f.label
    description := u.description.getD f.description
    required := u.required.getD f.required
    showDescription := u.showDescription.getD f.showDescription
    properties := u.properties.getD f.properties
    order := u.order.getD f.order }

/-- Update the first field with the given id in one fields list
(`item.fields.find(...)` then `Object.assign`); `none` when absent. -/
def updateFields (fid : String) (u : FieldUpdate) : List FormField → Option (List FormField)
  | [] => none
  | g :: rest =>
    if g.id == fid then some (applyUpdate g u :: rest)
    else (updateFields fid u rest).map (fun fs => g :: fs)

/-- The find-and-update loop of `handleUpdateField`: first root field with
the id, else first section containing it; the loop breaks at the first
match and touches nothing else. -/
def updateItems (fid : String) (u : FieldUpdate) : List FormItem → List FormItem
  | [] => []
  | .fieldItem f :: rest =>
    if f.id == fid then .fieldItem (applyUpdate f u) :: rest
    else .fieldItem f :: updateItems fid u rest
  | .sectionItem s :: rest =>
    match updateFields fid u s.fields with
    | some fs => .sectionItem { s with fields := fs } :: rest
    | none => .sectionItem s :: updateItems fid u rest

/-- `handleUpdateField(fieldId, updates)` from `FormCanvas.tsx`. -/
def handleUpdateField (fid : String) (u : FieldUpdate) (schema : FormSchema) : FormSchema :=
  { schema with items := updateItems fid u schema.items }

/-- Where the removed field was found (`sourceLocation` in
`handleReorderField`): at the root, or inside the section with this id. -/
inductive SourceLoc where
  | main : SourceLoc
  | inSec : String → SourceLoc
deriving Repr, DecidableEq

/-- Remove the first field with the given id from one fields list
(`findIndex` then `splice(index, 1)`); `none` when absent. -/
def removeFields (fid : String) : List FormField → Option (FormField × List FormField)
  | [] => none
  | g :: rest =>
    if g.id == fid then some (g, rest)
    else (removeFields fid rest).map (fun p => (p.1, g :: p.2))

/-- The find-and-remove loop of `handleReorderField`: the first root field
with the id is spliced out of the items, else the first section containing
it has it spliced out of its fields (not yet re-numbered); the loop breaks
at the first match. -/
def removeFieldItems (fid : String) : List FormItem → Option (FormField × SourceLoc × List FormItem)
  | [] => none
  | .fieldItem f :: rest =>
    if f.id == fid then some (f, .main, rest)
    else (removeFieldItems fid rest).map (fun p => (p.1, p.2.1, .fieldItem f :: p.2.2))
  | .sectionItem s :: rest =>
    match removeFields fid s.fields with
    | some (f, fs) => some (f, .inSec s.id, .sectionItem { s with fields := fs } :: rest)
    | none =>
      (removeFieldItems fid rest).map (fun p => (p.1, p.2.1, .sectionItem s :: p.2.2))

/-- Insert a field into the first section with the given id (splice at
`position ?? fields.length`, then re-number that section's fields); when no
such section exists the items are returned unchanged — the field being
inserted is simply dropped, as in the source. -/
def insertIntoSection (tid : String) (position : Option Nat) (f : FormField) :
    List FormItem → List FormItem
  | [] => []
  | .fieldItem g :: rest => .fieldItem g :: insertIntoSection tid position f rest
  | .sectionItem s :: rest =>
    if s.id == tid then
      .sectionItem { s with
        fields := renumberFields (spliceInsert s.fields (position.getD s.fields.length) f) } :: rest
    else .sectionItem s :: insertIntoSection tid position f rest

/-- Re-number the fields of the first section with the given id (the
source-section fix-up at the end of `handleReorderField`). -/
def renumberSectionFields (sid : String) : List FormItem → List FormItem
  | [] => []
  | .fieldItem g :: rest => .fieldItem g :: renumberSectionFields sid rest
  | .sectionItem s :: rest =>
    if s.id == sid then .sectionItem { s with fields := renumberFields s.fields } :: rest
    else .sectionItem s :: renumberSectionFields sid rest

/-- `handleReorderField(fieldId, targetId?, position?)` from
`FormCanvas.tsx`: remove the field from wherever it lives (early return
when absent); insert it into the target section when `targetId` is given
(the field is LOST when no section has that id), else splice it into the
root items at `position ?? length` and re-number the whole root list; then
re-number the source section's fields when the field came from one. -/
def handleReorderField (fid : String) (targetId : Option String) (position : Option Nat)
    (schema : FormSchema) : FormSchema :=
  match removeFieldItems fid schema.items with
  | none => schema
  | some (f, loc, items1) =>
    let items2 :=
      match targetId with
      | some tid => insertIntoSection tid position f items1
      | none =>
        renumberItems (spliceInsert items1 (position.getD items1.length) (.fieldItem f))
    let items3 :=
      match loc with
      | .main => items2
      | .inSec sid => renumberSectionFields sid items2
    { schema with items := items3 }

/-- `handleAddField(fieldType, targetId?, position?)` from
`FormCanvas.tsx`: build the default field with a fresh id, then insert it
into the target section (no-op on the items when the section id does not
exist) or splice it into the root items and re-number them. -/
def handleAddField (newId : String) (t : FieldType) (targetId : Option String)
    (position : Option Nat) (schema : FormSchema) : FormSchema :=
  let newField := { createDefaultField t with id := newId, order := 0 }
  match targetId with
  | some tid => { schema with items := insertIntoSection tid position newField schema.items }
  | none =>
    { schema with
      items :=
        renumberItems
          (spliceInsert schema.items (position.getD schema.items.length) (.fieldItem newField)) }

/-- The find-and-delete loop of `handleDeleteField`: first root-field match
is spliced out; else the first section containing the field has it spliced
out and that section's fields re-numbered; the loop breaks at the first
match.  The caller re-numbers the root afterwards in every case. -/
def deleteFieldItems (fid : String) : List FormItem → List FormItem
  | [] => []
  | .fieldItem f :: rest =>
    if f.id == fid then rest else .fieldItem f :: deleteFieldItems fid rest
  | .sectionItem s :: rest =>
    match removeFields fid s.fields with
    | some (_, fs) => .sectionItem { s with fields := renumberFields fs } :: rest
    | none => .sectionItem s :: deleteFieldItems fid rest

/-- `handleDeleteField(fieldId)` from `FormCanvas.tsx` (the root re-number
runs unconditionally, found or not). -/
def handleDeleteField (fid : String) (schema : FormSchema) : FormSchema :=
  { schema with items := renumberItems (deleteFieldItems fid schema.items) }

/-- `handleAddSection()` from `FormCanvas.tsx`: append a fresh default
section with `order = items.length`. -/
def handleAddSection (newId : String) (schema : FormSchema) : FormSchema :=
  { schema with
    items := schema.items ++ [.sectionItem { createDefaultSection newId with order := schema.items.length }] }

/-- Remove the first section with the given id (`findIndex` over
`isFormSection(item) && item.id === sectionId`, then `splice(i, 1)`). -/
def removeSection (sid : String) : List FormItem → Option (FormSection × List FormItem)
  | [] => none
  | .fieldItem f :: rest =>
    (removeSection sid rest).map (fun p => (p.1, .fieldItem f :: p.2))
  | .sectionItem s :: rest =>
    if s.id == sid then some (s, rest)
    else (removeSection sid rest).map (fun p => (p.1, .sectionItem s :: p.2))

/-- `handleDeleteSection(sectionId)` from `FormCanvas.tsx`: splice the
section out and re-number the root items; unchanged when absent. -/
def handleDeleteSection (sid : String) (schema : FormSchema) : FormSchema :=
  match removeSection sid schema.items with
  | none => schema
  | some (_, rest) => { schema with items := renumberItems rest }

/-- `handleReorderSection(sectionId, newPosition?)` from `FormCanvas.tsx`:
when the section exists and a position was given, splice it out, splice it
back in at the new position and re-number all root items; otherwise leave
the schema unchanged. -/
def handleReorderSection (sid : String) (newPosition : Option Nat)
    (schema : FormSchema) : FormSchema :=
  match removeSection sid schema.items, newPosition with
  | some (s, rest), some p =>
    { schema with items := renumberItems (spliceInsert rest p (.sectionItem s)) }
  | _, _ => schema

/-- A DOM bounding rectangle, reduced to the members
`getDropZonePosition` reads. -/
structure ElementRect where
  top : Rat
  height : Rat
deriving Repr, DecidableEq

/-- `rect.top + rect.height / 2`. -/
def rectMiddle (r : ElementRect) : Rat :=
  r.top + r.height / 2

/-- The scan loop of `getDropZonePosition`, carrying the running index:
return the index of the first element whose vertical midpoint lies strictly
below the pointer (`mouseY < elementMiddle`); fall through to the element
count (which equals the sibling-list length, one DOM element per item). -/
def dropPositionAux (mouseY : Rat) : Nat → List ElementRect → Nat
  | i, [] => i
  | i, r :: rest => if mouseY < rectMiddle r then i else dropPositionAux mouseY (i + 1) rest

/-- `getDropZonePosition` from `FormCanvas.tsx`, over the sibling element
rectangles of the hovered drop zone. -/
def getDropZonePosition (mouseY : Rat) (rects : List ElementRect) : Nat :=
  dropPositionAux mouseY 0 rects

/-- Modelled from the spec: `computeDropIndex(pointerY, siblingElementRects)`
returns the position of the first sibling whose midpoint is below the
pointer, and the list length when no such sibling exists. -/
def computeDropIndexSpec (pointerY : Rat) (rects : List ElementRect) : Nat :=
  match rects.findIdx? (fun r => pointerY < rectMiddle r) with
  | some i => i
  | none => rects.length

/-- A field as a JS object reference: the `properties` slot holds a heap
address, not a value.  This models the one aliasing-sensitive step of the
canvas, the object spread in `handleCloneField`. -/
structure FormFieldRef where
  id : String
  label : String
  propsRef : Nat
  order : Nat
deriving Repr, DecidableEq

/-- A heap of property bags, addressed by `Nat`. -/
def PropsStore : Type := Nat → FieldProperties

/-- Mutating the bag at one address (`field.properties.x = v` through a
reference). -/
def storeWrite (st : PropsStore) (r : Nat) (p : FieldProperties) : PropsStore :=
  fun x => if x == r then p else st x

/-- The spread `{...field, id, label, order}` of `handleCloneField`, at the
reference level: the `propsRef` address is copied unchanged, so the clone
and the original share one `properties` object. -/
def spreadCloneRef (f : FormFieldRef) (newId : String) (ord : Nat) : FormFieldRef :=
  { f with id := newId, label := f.label ++ " (Copy)", order := ord }

/-- A bare short-text field used by the closed examples. -/
def exFieldA : FormField :=
  { id := "f0", type := .shortText, label := "f0", description := some ""
    required := false, showDescription := false, properties := {}, order := 0 }

/-- A second bare short-text field, sitting after `exFieldA`. -/
def exFieldB : FormField :=
  { id := "f1", type := .shortText, label := "f1", description := some ""
    required := false, showDescription := false, properties := {}, order := 1 }

/-- A schema with two standalone root fields, order-dense. -/
def exTwoRootFields : FormSchema :=
  { id := "s", title := "t", items := [.fieldItem exFieldA, .fieldItem exFieldB] }

/-- A schema with a single standalone root field. -/
def exOneRootField : FormSchema :=
  { id := "s", title := "t", items := [.fieldItem exFieldA] }

/-- A required multi-select dropdown field. -/
def exDropdownMultiReq : FormField :=
  { id := "dd", type := .dropdown, label := "dd", description := some ""
    required := true, showDescription := false
    properties := { options := some [], selectionType := some "multi" }, order := 0 }

/-- A non-required single-select dropdown field. -/
def exDropdownSingle : FormField :=
  { id := "ds", type := .dropdown, label := "ds", description := some ""
    required := false, showDescription := false
    properties := { options := some [], selectionType := some "single" }, order := 0 }

/-- A required auto-filled (udf) field. -/
def exUdfReq : FormField :=
  { id := "u1", type := .udfDesignation, label := "Designation", description := some ""
    required := true, showDescription := false, properties := {}, order := 0 }

/-- A required number field with the default number properties. -/
def exNumberReq : FormField :=
  { id := "nn", type := .number, label := "nn", description := some ""
    required := true, showDescription := false
    properties := { placeholder := some "Enter a number", min := some 0, step := some 1 }, order := 0 }

/-- Field A of the validation-ordering example: required, left empty. -/
def exValFieldA : FormField :=
  { id := "A", type := .shortText, label := "A", description := some ""
    required := true, showDescription := false, properties := {}, order := 0 }

/-- Field B of the validation-ordering example: not required, left empty. -/
def exValFieldB : FormField :=
  { id := "B", type := .shortText, label := "B", description := some ""
    required := false, showDescription := false, properties := {}, order := 1 }

/-- Field C of the validation-ordering example: a number field whose value
will be the non-numeric string `"abc"`. -/
def exValFieldC : FormField :=
  { id := "C", type := .number, label := "C", description := some ""
    required := false, showDescription := false
    properties := { min := some 0, step := some 1 }, order := 2 }

/-- The [A, B, C] schema of the validation-ordering example. -/
def exValSchema : FormSchema :=
  { id := "s", title := "t"
    items := [.fieldItem exValFieldA, .fieldItem exValFieldB, .fieldItem exValFieldC] }

/-- The value map of the validation-ordering example: `C` holds `"abc"`,
everything else is unanswered. -/
def exValValues : String → JSValue :=
  fun i => if i == "C" then .str "abc" else .undefined

/-- A schema with one required short-text field, for the submit-readiness
example. -/
def exSubmitSchema : FormSchema :=
  { id := "s", title := "t"
    items := [.fieldItem { id := "f1", type := .shortText, label := "f1"
                           description := some "", required := true
                           showDescription := false, properties := {}, order := 0 }] }

/-- The value map of the submit-readiness example: the required field holds
a whitespace-only string. -/
def exSubmitValues : String → JSValue :=
  fun i => if i == "f1" then .str " " else .undefined

/-- A field reference whose `properties` live at heap address 7. -/
def exFieldRef : FormFieldRef :=
  { id := "f0", label := "A", propsRef := 7, order := 0 }

/-- A heap in which every address holds the empty property bag. -/
def exStore : PropsStore :=
  fun _ => {}

/-- A mutated property bag, distinct from the empty one. -/
def exMutProps : FieldProperties :=
  { placeholder := some "mutated" }

/-- An update object carrying an `id` key. -/
def exUpdateWithId : FieldUpdate :=
  { id := some "zzz" }

/-- An update object carrying only a `label` key. -/
def exUpdateLabel : FieldUpdate :=
  { label := some "L" }

/-- Modelled from the spec: the document-order error walk — items
top-to-bottom, each section's fields expanded inline at the section's
position.  Compared against the code path (`getAllFields` + temporary
section + `validateForm`) in the C5 theorem. -/
def documentOrderErrorsSpec (env : JsEnv) (items : List FormItem)
    (values : String → JSValue) : List ValidationError :=
  items.flatMap (fun it =>
    match it with
    | .fieldItem f => validateField env f (values f.id)
    | .sectionItem s => s.fields.flatMap (fun f => validateField env f (values f.id)))

/-- Re-numbering always yields a dense order: the `order` values of
`renumberFields fs` read off in array order are `0, 1, ...`. -/
theorem fieldsOrderDense_renumberFields (fs : List FormField) :
    fieldsOrderDense (renumberFields fs) = true := by
  unfold fieldsOrderDense renumberFields
  have h1 : ((fs.enum.map (fun p => { p.2 with order := p.1 })).map (fun f => f.order))
      = fs.enum.map Prod.fst := by
    rw [List.map_map]; rfl
  rw [h1, List.length_map, List.enum_length, List.enum_map_fst]
  exact beq_self_eq_true _

/-- Unfolding lemma for `getAllFields` on a cons. -/
theorem getAllFields_cons (it : FormItem) (rest : List FormItem) :
    getAllFields (it :: rest) =
      (match it with
       | .fieldItem f => [f]
       | .sectionItem s => s.fields) ++ getAllFields rest := by
  cases it <;> rfl

/-- Mapping a per-field error function over the flattened field list is the
same as walking the items in document order. -/
theorem getAllFields_flatMap (g : FormField → List ValidationError) (items : List FormItem) :
    (getAllFields items).flatMap g =
      items.flatMap (fun it =>
        match it with
        | .fieldItem f => g f
        | .sectionItem s => s.fields.flatMap g) := by
  induction items with
  | nil => rfl
  | cons it rest ih =>
    rw [getAllFields_cons, List.flatMap_append, ih, List.flatMap_cons]
    cases it <;> simp

/-- The scan loop of `getDropZonePosition` computes the spec-side
first-midpoint-below index, shifted by the running accumulator. -/
theorem dropPositionAux_spec (y : Rat) (rects : List ElementRect) (i : Nat) :
    dropPositionAux y i rects = i + computeDropIndexSpec y rects := by
  induction rects generalizing i with
  | nil => simp [dropPositionAux, computeDropIndexSpec]
  | cons r rest ih =>
    by_cases h : y < rectMiddle r
    · simp [dropPositionAux, computeDropIndexSpec, List.findIdx?_cons, h]
    · simp only [dropPositionAux, computeDropIndexSpec, List.findIdx?_cons, h, if_neg]
      rw [ih]
      cases hf : rest.findIdx? (fun r => decide (y < rectMiddle r)) with
      | none => simp [computeDropIndexSpec, hf]; omega
      | some j => simp [computeDropIndexSpec, hf]; omega

/-- A fields list containing no field with the searched id makes the clone
splice come back empty. -/
theorem cloneFields_none (newId fid : String) (fs : List FormField) (j : Nat)
    (h : fs.all (fun g => !(g.id == fid)) = true) :
    cloneFields newId fid j fs = none := by
  induction fs generalizing j with
  | nil => rfl
  | cons g rest ih =>
    simp only [List.all_cons, Bool.and_eq_true] at h
    have h1 : (g.id == fid) = false := by simpa using h.1
    simp [cloneFields, h1, ih _ h.2]

/-- The clone loop walks unchanged past items that do not contain the
searched field, advancing its root index. -/
theorem cloneItemsAux_skip (newId fid : String) (pre rest : List FormItem) (i : Nat)
    (h : noFieldWithId fid pre = true) :
    cloneItemsAux newId fid i (pre ++ rest) =
      pre ++ cloneItemsAux newId fid (i + pre.length) rest := by
  induction pre generalizing i with
  | nil => simp [cloneItemsAux]
  | cons it pre ih =>
    simp only [noFieldWithId, List.all_cons, Bool.and_eq_true] at h
    have h2 : noFieldWithId fid pre = true := h.2
    cases it with
    | fieldItem f =>
      have h1 : (f.id == fid) = false := by simpa using h.1
      simp only [List.cons_append, cloneItemsAux, h1, Bool.false_eq_true, if_false,
        List.append_eq]
      rw [ih _ h2, List.length_cons,
        show i + 1 + pre.length = i + (pre.length + 1) from by omega]
    | sectionItem s =>
      have h1 : s.fields.all (fun g => !(g.id == fid)) = true := by simpa using h.1
      simp only [List.cons_append, cloneItemsAux, cloneFields_none newId fid _ 0 h1,
        List.append_eq]
      rw [ih _ h2, List.length_cons,
        show i + 1 + pre.length = i + (pre.length + 1) from by omega]

/-- Locating the first field with the searched id inside a fields list: the
clone is spliced in immediately after it, carrying the insertion index as
its interim `order`. -/
theorem cloneFields_found (newId : String) (fpre : List FormField) (f : FormField)
    (fpost : List FormField) (j : Nat)
    (h : fpre.all (fun g => !(g.id == f.id)) = true) :
    cloneFields newId f.id j (fpre ++ f :: fpost) =
      some (fpre ++ f :: cloneOf f newId (j + fpre.length + 1) :: fpost) := by
  induction fpre generalizing j with
  | nil => simp [cloneFields]
  | cons g rest ih =>
    simp only [List.all_cons, Bool.and_eq_true] at h
    have h1 : (g.id == f.id) = false := by simpa using h.1
    simp only [List.cons_append, cloneFields, h1, Bool.false_eq_true, if_false,
      List.append_eq]
    rw [ih _ h.2, List.length_cons,
      show j + 1 + rest.length = j + (rest.length + 1) from by omega]
    rfl

/-- A fields list containing no field with the searched id makes the update
splice come back empty. -/
theorem updateFields_none (fid : String) (u : FieldUpdate) (fs : List FormField)
    (h : fs.all (fun g => !(g.id == fid)) = true) :
    updateFields fid u fs = none := by
  induction fs with
  | nil => rfl
  | cons g rest ih =>
    simp only [List.all_cons, Bool.and_eq_true] at h
    have h1 : (g.id == fid) = false := by simpa using h.1
    simp [updateFields, h1, ih h.2]

/-- Locating the first field with the searched id inside a fields list: the
update is applied to it alone. -/
theorem updateFields_found (u : FieldUpdate) (fpre : List FormField) (f : FormField)
    (fpost : List FormField)
    (h : fpre.all (fun g => !(g.id == f.id)) = true) :
    updateFields f.id u (fpre ++ f :: fpost) = some (fpre ++ applyUpdate f u :: fpost) := by
  induction fpre with
  | nil => simp [updateFields]
  | cons g rest ih =>
    simp only [List.all_cons, Bool.and_eq_true] at h
    have h1 : (g.id == f.id) = false := by simpa using h.1
    simp [updateFields, h1, ih h.2]

/-- The update loop walks unchanged past items that do not contain the
searched field. -/
theorem updateItems_skip (fid : String) (u : FieldUpdate) (pre rest : List FormItem)
    (h : noFieldWithId fid pre = true) :
    updateItems fid u (pre ++ rest) = pre ++ updateItems fid u rest := by
  induction pre with
  | nil => rfl
  | cons it pre ih =>
    simp only [noFieldWithId, List.all_cons, Bool.and_eq_true] at h
    have h2 : noFieldWithId fid pre = true := h.2
    cases it with
    | fieldItem f =>
      have h1 : (f.id == fid) = false := by simpa using h.1
      simp [updateItems, h1, ih h2]
    | sectionItem s =>
      have h1 : s.fields.all (fun g => !(g.id == fid)) = true := by simpa using h.1
      simp [updateItems, updateFields_none fid u _ h1, ih h2]

/-- Claim C1 (code evaluated at the failing input): the order-density
invariant is violated by `handleCloneField` at the root level.  On a
schema whose root items are two order-dense standalone fields, cloning the
first yields orders `[0, 1, 1]` — the clone is numbered but the sibling
after the insertion point keeps its stale order, so `order` no longer
equals the array index. -/
theorem C1_cloneField_root_breaks_order_density :
    itemsOrderDense exTwoRootFields.items = true ∧
    (handleCloneField "c0" "f0" exTwoRootFields).items.map itemOrder = [0, 1, 1] ∧
    itemsOrderDense (handleCloneField "c0" "f0" exTwoRootFields).items = false := by
  refine ⟨rfl, rfl, rfl⟩

/-- Claim C2 counterexample: cloning a root-level field does NOT re-number
the siblings after the insertion point (the resulting orders are
`[0, 1, 1]`, not the claimed `[0, 1, 2]`), and the object spread copies
the `properties` REFERENCE, so the copy is not independent: the clone
shares the original address, and writing the shared address through the
clone changes what the original dereferences to. -/
theorem C2_counterexample :
    (handleCloneField "c0" "f0" exTwoRootFields).items.map itemOrder = [0, 1, 1] ∧
    (handleCloneField "c0" "f0" exTwoRootFields).items.map itemOrder ≠ [0, 1, 2] ∧
    (spreadCloneRef exFieldRef "c0" 1).propsRef = exFieldRef.propsRef ∧
    storeWrite exStore (spreadCloneRef exFieldRef "c0" 1).propsRef exMutProps
        exFieldRef.propsRef = exMutProps ∧
    exStore exFieldRef.propsRef ≠ exMutProps := by
  refine ⟨rfl, by decide, rfl, rfl, by decide⟩

/-- Claim C2 (amended): for a fresh generated id, `cloneField(F.id)`
produces a clone with the fresh id (hence distinct from every existing
id), label `F.label + " (Copy)"`, the same `properties` value (the spread
shares the reference, so the bag is equal but not independent), positioned
immediately after F in its list; the siblings are re-numbered densely when
F lives inside a section, while at the root level the list keeps the
orders of the items after the insertion point unchanged. -/
theorem C2_cloneField_amended (schema : FormSchema) (newId : String) :
    (∀ pre f post,
        schema.items = pre ++ .fieldItem f :: post →
        noFieldWithId f.id pre = true →
        newId ∉ allIds schema.items →
        (handleCloneField newId f.id schema).items =
            pre ++ .fieldItem f :: .fieldItem (cloneOf f newId (pre.length + 1)) :: post ∧
          (cloneOf f newId (pre.length + 1)).properties = f.properties ∧
          (cloneOf f newId (pre.length + 1)).label = f.label ++ " (Copy)" ∧
          (cloneOf f newId (pre.length + 1)).id ∉ allIds schema.items) ∧
    (∀ pre s post fpre f fpost,
        schema.items = pre ++ .sectionItem s :: post →
        s.fields = fpre ++ f :: fpost →
        noFieldWithId f.id pre = true →
        fpre.all (fun g => !(g.id == f.id)) = true →
        newId ∉ allIds schema.items →
        (handleCloneField newId f.id schema).items =
            pre ++
              .sectionItem
                { s with
                  fields := renumberFields (fpre ++ f :: cloneOf f newId (fpre.length + 1) :: fpost) } ::
              post ∧
          fieldsOrderDense
            (renumberFields (fpre ++ f :: cloneOf f newId (fpre.length + 1) :: fpost)) = true ∧
          (cloneOf f newId (fpre.length + 1)).properties = f.properties ∧
          (cloneOf f newId (fpre.length + 1)).label = f.label ++ " (Copy)" ∧
          (cloneOf f newId (fpre.length + 1)).id ∉ allIds schema.items) := by
  constructor
  · intro pre f post hitems hpre hfresh
    refine ⟨?_, rfl, rfl, hfresh⟩
    show cloneItemsAux newId f.id 0 schema.items = _
    rw [hitems, cloneItemsAux_skip newId f.id pre _ 0 hpre]
    simp [cloneItemsAux]
  · intro pre s post fpre f fpost hitems hfields hpre hfpre hfresh
    refine ⟨?_, fieldsOrderDense_renumberFields _, rfl, rfl, hfresh⟩
    show cloneItemsAux newId f.id 0 schema.items = _
    rw [hitems, cloneItemsAux_skip newId f.id pre _ 0 hpre]
    simp only [cloneItemsAux, hfields, cloneFields_found newId fpre f fpost 0 hfpre]
    simp

/-- Claim C2 witness: the amended clone theorem applied at a concrete
two-field schema. -/
theorem C2_cloneField_amended_witness :
    (handleCloneField "c0" "f0" exTwoRootFields).items =
      [.fieldItem exFieldA, .fieldItem (cloneOf exFieldA "c0" 1), .fieldItem exFieldB] := by
  have h := (C2_cloneField_amended exTwoRootFields "c0").1 [] exFieldA [.fieldItem exFieldB]
    rfl rfl (by decide)
  simpa using h.1

/-- Claim C3 (code evaluated at the failing input): `handleReorderField`
with a target section id that does not exist removes the field from its
source list and never reinserts it — the schema silently loses the field
instead of being left unchanged. -/
theorem C3_moveField_missing_target_loses_field :
    (handleReorderField "f0" (some "missing") (some 0) exOneRootField).items = [] ∧
    exOneRootField.items ≠ [] ∧
    handleReorderField "f0" (some "missing") (some 0) exOneRootField ≠ exOneRootField := by
  refine ⟨rfl, by decide, by decide⟩

/-- Claim C4 counterexample: the empty array is NOT treated as an empty
value by the required guard (`![]` is false in JS).  A required
multi-select dropdown with value `[]` yields no error at all instead of
the claimed single required error, and a non-required single-select
dropdown with value `[]` yields a selection-type error instead of the
claimed no errors. -/
theorem C4_counterexample :
    validateField defaultEnv exDropdownMultiReq (.arr []) = [] ∧
    validateField defaultEnv exDropdownMultiReq (.arr []) ≠ [requiredError exDropdownMultiReq] ∧
    validateField defaultEnv exDropdownSingle (.arr []) =
      [⟨"ds", "ds allows only single selection"⟩] := by
  refine ⟨rfl, by decide, rfl⟩

/-- Claim C4 (amended): for a value that is `undefined`, `null`, a string
trimming to empty, the number `0`, or `false` — the JS-falsy shapes the
guard actually recognises, which exclude the empty array — a required
field yields exactly the one required error with no further checks, and a
non-required field yields no errors. -/
theorem C4_required_empty_amended (env : JsEnv) (f : FormField) (v : JSValue)
    (h : v = .undefined ∨ v = .null ∨ (∃ s, v = .str s ∧ jsTrim s = "") ∨
         v = .num 0 ∨ v = .bool false) :
    (f.required = true → validateField env f v = [requiredError f]) ∧
    (f.required = false → validateField env f v = []) := by
  have hb : isBlankValue v = true := by
    rcases h with h | h | ⟨s, rfl, hs⟩ | h | h
    · subst h; rfl
    · subst h; rfl
    · simp [isBlankValue, hs]
    · subst h; rfl
    · subst h; rfl
  constructor
  · intro hreq; simp [validateField, hreq, hb]
  · intro hreq; simp [validateField, hreq, hb]

/-- Claim C4 witness: the amended required-empty theorem applied to a
required short-text field holding a whitespace-only string. -/
theorem C4_required_empty_amended_witness :
    validateField defaultEnv exValFieldA (.str " ") = [requiredError exValFieldA] :=
  (C4_required_empty_amended defaultEnv exValFieldA (.str " ")
    (Or.inr (Or.inr (Or.inl ⟨" ", rfl, rfl⟩)))).1 rfl

/-- Claim C5: the submit-time validation error list equals the
document-order walk of the items (sections expanded inline at their
position); `isValid` holds exactly when the error list is empty; and the
concrete [A (required, empty), B (not required, empty), C (number,
value "abc")] schema yields exactly the two errors
[A is required, C must be a valid number], in that order, with B
contributing nothing. -/
theorem C5_validateForm_document_order :
    (∀ (env : JsEnv) (items : List FormItem) (values : String → JSValue),
        (handleSubmitValidation env items values).errors =
          documentOrderErrorsSpec env items values) ∧
    (∀ (env : JsEnv) (items : List FormItem) (values : String → JSValue),
        ((handleSubmitValidation env items values).isValid = true ↔
          (handleSubmitValidation env items values).errors = [])) ∧
    (∀ env : JsEnv,
        handleSubmitValidation env exValSchema.items exValValues =
          ⟨false, [⟨"A", "A is required"⟩, ⟨"C", "C must be a valid number"⟩]⟩) := by
  refine ⟨?_, ?_, fun env => rfl⟩
  · intro env items values
    simp [handleSubmitValidation, validateForm, tempValidationSection,
      documentOrderErrorsSpec, getAllFields_flatMap]
  · intro env items values
    simp [handleSubmitValidation, validateForm, List.isEmpty_iff]

/-- Claim C6 counterexample: a udf field marked required with an empty
value DOES participate in validation — the generic required guard emits a
required error for it, contradicting the claim that auto-filled fields
never yield errors. -/
theorem C6_counterexample :
    validateField defaultEnv exUdfReq .undefined = [⟨"u1", "Designation is required"⟩] ∧
    validateField defaultEnv exUdfReq .undefined ≠ [] := by
  refine ⟨rfl, by decide⟩

/-- Claim C6 (amended): a udf-family field matches no type-specific
validation case, so its validation reduces to exactly the generic
required-empty guard (no error when not required or when the value is
non-empty; the required error when required and empty); and the renderer
always renders a udf field disabled with the provenance placeholder, in
every mode and for every disabled argument. -/
theorem C6_udf_amended (env : JsEnv) (f : FormField) (v : JSValue) (d : Bool)
    (h : f.type.isUDF = true) :
    validateField env f v =
      (if f.required && isBlankValue v then [requiredError f] else []) ∧
    renderFieldControl f d =
      { disabled := true, placeholder := f.label ++ " (auto-filled from user data)" } := by
  refine ⟨?_, by simp [renderFieldControl, h]⟩
  cases ht : f.type <;>
    first
      | (rw [ht] at h; exact absurd h (by decide))
      | (by_cases hA : f.required && isBlankValue v
         · simp [validateField, hA]
         · by_cases hb : isBlankValue v <;> simp [validateField, hA, hb, ht])

/-- Claim C6 witness: the amended udf theorem applied to a concrete
required udf field with an empty value. -/
theorem C6_udf_amended_witness :
    validateField defaultEnv exUdfReq .undefined =
      (if exUdfReq.required && isBlankValue .undefined then [requiredError exUdfReq] else []) ∧
    renderFieldControl exUdfReq false =
      { disabled := true, placeholder := "Designation (auto-filled from user data)" } := by
  have h := C6_udf_amended defaultEnv exUdfReq .undefined false rfl
  refine ⟨h.1, ?_⟩
  rw [h.2]
  rfl

/-- Claim C7 counterexample: `handleUpdateField` does NOT protect `id` —
an update object carrying an `id` key overwrites the located field's id
(the single root field's id becomes "zzz" instead of staying "f0"). -/
theorem C7_counterexample :
    (handleUpdateField "f0" exUpdateWithId exOneRootField).items.map itemId = ["zzz"] ∧
    (handleUpdateField "f0" exUpdateWithId exOneRootField).items.map itemId ≠ ["f0"] := by
  refine ⟨rfl, by decide⟩

/-- Claim C7 (amended): `handleUpdateField` shallow-merges every key
present on the update into the located field — including `id` and `order`
when present — and leaves every other item and list untouched; when the
update carries no `id` and no `order` key, the located field keeps its id
and order. -/
theorem C7_updateField_amended (schema : FormSchema) (u : FieldUpdate) :
    (∀ pre f post,
        schema.items = pre ++ .fieldItem f :: post →
        noFieldWithId f.id pre = true →
        u.id = none → u.order = none →
        (handleUpdateField f.id u schema).items =
            pre ++ .fieldItem (applyUpdate f u) :: post ∧
          (applyUpdate f u).id = f.id ∧ (applyUpdate f u).order = f.order) ∧
    (∀ pre s post fpre f fpost,
        schema.items = pre ++ .sectionItem s :: post →
        s.fields = fpre ++ f :: fpost →
        noFieldWithId f.id pre = true →
        fpre.all (fun g => !(g.id == f.id)) = true →
        u.id = none → u.order = none →
        (handleUpdateField f.id u schema).items =
            pre ++ .sectionItem { s with fields := fpre ++ applyUpdate f u :: fpost } :: post ∧
          (applyUpdate f u).id = f.id ∧ (applyUpdate f u).order = f.order) := by
  constructor
  · intro pre f post hitems hpre hid hord
    refine ⟨?_, by simp [applyUpdate, hid], by simp [applyUpdate, hord]⟩
    show updateItems f.id u schema.items = _
    rw [hitems, updateItems_skip f.id u pre _ hpre]
    simp [updateItems]
  · intro pre s post fpre f fpost hitems hfields hpre hfpre hid hord
    refine ⟨?_, by simp [applyUpdate, hid], by simp [applyUpdate, hord]⟩
    show updateItems f.id u schema.items = _
    rw [hitems, updateItems_skip f.id u pre _ hpre]
    simp only [updateItems, hfields, updateFields_found u fpre f fpost hfpre]

/-- Claim C7 witness: the amended update theorem applied at a concrete
one-field schema with a label-only update. -/
theorem C7_updateField_amended_witness :
    (handleUpdateField "f0" exUpdateLabel exOneRootField).items =
      [.fieldItem (applyUpdate exFieldA exUpdateLabel)] ∧
    (applyUpdate exFieldA exUpdateLabel).id = "f0" ∧
    (applyUpdate exFieldA exUpdateLabel).order = 0 := by
  have h := (C7_updateField_amended exOneRootField exUpdateLabel).1 [] exFieldA [] rfl rfl rfl rfl
  exact ⟨by simpa using h.1, h.2.1, h.2.2⟩

/-- Claim C8: the drop-index computation returns the position of the first
sibling whose vertical midpoint lies strictly below the pointer, the list
length when no such sibling exists, 0 for the empty list regardless of
pointer position, and 1 for midpoints 10, 30, 50 with the pointer at 25. -/
theorem C8_computeDropIndex_confirmed :
    (∀ (y : Rat) (rects : List ElementRect),
        getDropZonePosition y rects = computeDropIndexSpec y rects) ∧
    (∀ y : Rat, getDropZonePosition y [] = 0) ∧
    getDropZonePosition 25 [⟨5, 10⟩, ⟨25, 10⟩, ⟨45, 10⟩] = 1 := by
  refine ⟨fun y rects => ?_, fun y => rfl, ?_⟩
  · rw [getDropZonePosition, dropPositionAux_spec]; omega
  · norm_num [getDropZonePosition, dropPositionAux, rectMiddle]

/-- Claim C9: the number `0` is treated as an absent answer — a required
number field with value `0` yields the required error (because `!0` is
true in JS), not a pass into the min/max bound checks. -/
theorem C9_required_number_zero (env : JsEnv) (f : FormField)
    (hreq : f.required = true) (hty : f.type = .number) :
    validateField env f (.num 0) = [requiredError f] := by
  simp [validateField, hreq, isBlankValue, jsTruthy]

/-- Claim C9 witness: the zero-is-absent theorem applied to a concrete
required number field. -/
theorem C9_required_number_zero_witness :
    validateField defaultEnv exNumberReq (.num 0) = [requiredError exNumberReq] :=
  C9_required_number_zero defaultEnv exNumberReq rfl rfl

/-- Claim C10: submit-enabled does not imply validation passes — on a
schema with one required short-text field holding the whitespace string
" ", `canSubmit` is true (the value is none of `undefined`, `null`, `""`)
yet validation fails with a required error (the validator trims). -/
theorem C10_canSubmit_does_not_imply_valid :
    canSubmit exSubmitSchema.items exSubmitValues = true ∧
    (handleSubmitValidation defaultEnv exSubmitSchema.items exSubmitValues).isValid = false ∧
    (handleSubmitValidation defaultEnv exSubmitSchema.items exSubmitValues).errors =
      [⟨"f1", "f1 is required"⟩] := by
  refine ⟨rfl, rfl, rfl⟩
